import Mathlib

/-!
Shallow embedding of `dftimewolf/lib/state.py` (class `DFTimewolfState`).

Mutable Python state is modelled by explicit state passing; printed output
is modelled as a list of emitted lines; `sys.exit(-1)` is modelled as an
`Option Int` exit code (`some (-1)` when the process aborts, `none` when
the call returns normally).  The container store dict of Python lists is
modelled with an explicit heap (`cells`) plus a tag index, so that list
aliasing (a returned list is the stored list object) is captured
faithfully.
-/

namespace DFTW

/-- An error-ledger entry: `(message, critical-flag)`, exactly the pairs
appended by `DFTimewolfState.add_error`. -/
abbrev ErrEntry := String × Bool

/-- The line `print`ed for one ledger entry by `check_errors`:
Python `'{0:s}  {1:s}'.format('CRITICAL: ' if critical else '', error)`. -/
def formatError (e : ErrEntry) : String :=
  (if e.2 then "CRITICAL: " else "") ++ "  " ++ e.1

/-- The fixed header line printed by `check_errors` when the scanned list
is non-empty. -/
def errorsHeader : String := "dfTimewolf encountered one or more errors:"

/-- The fixed notice printed just before `sys.exit(-1)`. -/
def abortNotice : String := "Critical error found. Aborting."

/-- The `for error, critical in errors:` loop body of `check_errors`:
prints each entry; on the first critical entry prints the abort notice and
exits with `-1` (`sys.exit(-1)` raises, so the loop stops there). -/
def checkLoop : List ErrEntry → List String × Option Int
  | [] => ([], none)
  | e :: rest =>
    if e.2 then
      ([formatError e, abortNotice], some (-1))
    else
      let r := checkLoop rest
      (formatError e :: r.1, r.2)

/-- Models `DFTimewolfState.check_errors`, as a function of the scanned list
(the Python code first selects `global_errors` or `errors` via
`is_global`; see `check_errors_state`).  Returns the printed lines and
the exit code, if any. -/
def check_errors (errors : List ErrEntry) : List String × Option Int :=
  if errors = [] then ([], none)
  else
    let r := checkLoop errors
    (errorsHeader :: r.1, r.2)

/-- Payload data moved through the `input`/`output` staging buffers. -/
abbrev Data := String

/-- Models `containers.interface.AttributeContainer`: a `CONTAINER_TYPE` tag plus
an opaque payload (identified by a natural number). -/
structure Container where
  container_type : String
  payload : Nat
deriving DecidableEq, Repr

/-- The container store: Python's `self.store` dict of lists, with the
list objects made explicit as heap `cells` so that aliasing of returned
lists is modelled.  `index` maps a `CONTAINER_TYPE` tag to the cell
holding its list. -/
structure ContainerStore where
  cells : List (List Container)
  index : List (String × Nat)
deriving DecidableEq, Repr

/-- Association-list lookup, modelling Python dict lookup by key. -/
def assocLookup {β : Type} (k : String) : List (String × β) → Option β
  | [] => none
  | (k2, v) :: rest => if k2 = k then some v else assocLookup k rest

/-- Association-list assignment `d[k] = v`, modelling Python dict
assignment: overwrite the existing binding or append a new one. -/
def assocSet {β : Type} (k : String) (v : β) : List (String × β) → List (String × β)
  | [] => [(k, v)]
  | (k2, v2) :: rest => if k2 = k then (k, v) :: rest else (k2, v2) :: assocSet k v rest

/-- Models `DFTimewolfState.store_container` restricted to the store:
`self.store.setdefault(container.CONTAINER_TYPE, []).append(container)` —
append to the existing list object for the tag, or bind the tag to a
fresh list holding just `container`. -/
def ContainerStore.store_container (s : ContainerStore) (c : Container) : ContainerStore :=
  match assocLookup c.container_type s.index with
  | some r => { s with cells := s.cells.set r ((s.cells.getD r []) ++ [c]) }
  | none =>
      { cells := s.cells ++ [[c]],
        index := s.index ++ [(c.container_type, s.cells.length)] }

/-- What `self.store.get(CONTAINER_TYPE, [])` hands back: either the
stored list object itself (an alias to heap cell `r`) or, when the tag is
absent, a fresh empty list that is not in the store. -/
inductive GetResult where
  | ref (r : Nat)
  | fresh
deriving DecidableEq, Repr

/-- Models `DFTimewolfState.get_containers` restricted to the store: looks the
tag up and returns the stored list object (or a fresh empty list), along
with the store, which it does not modify (`dict.get` never inserts). -/
def ContainerStore.get_containers (s : ContainerStore) (tag : String) :
    GetResult × ContainerStore :=
  match assocLookup tag s.index with
  | some r => (GetResult.ref r, s)
  | none => (GetResult.fresh, s)

/-- Reading the contents of a previously returned list object against the
current heap: an alias reflects the cell's current contents, a fresh empty
list is always empty. -/
def ContainerStore.read (s : ContainerStore) : GetResult → List Container
  | GetResult.ref r => s.cells.getD r []
  | GetResult.fresh => []

/-- The empty container store (`self.store = {}` from `__init__`). -/
def ContainerStore.empty : ContainerStore := { cells := [], index := [] }

/-- An instantiated module object, identified by a natural number (its
domain behaviour is external to the core and irrelevant here). -/
abbrev Module := Nat

/-- One entry of `recipe['modules']`: its `name`, and the names in
`wants` (the declared `args` mapping is resolved by an external
collaborator and plays no role in the verified operations). -/
structure ModuleDescription where
  name : String
  wants : List String
deriving DecidableEq, Repr

/-- A recipe: the ordered list under its `'modules'` key. -/
structure Recipe where
  modules : List ModuleDescription
deriving DecidableEq, Repr

/-- The mutable attributes of `DFTimewolfState`.  A `threading.Event` is
modelled by its `is_set` flag (`threading.Event()` starts cleared, i.e.
`false`); `self._module_pool` and `self.events` are dicts modelled as
association lists. -/
structure DFTimewolfState where
  errors : List ErrEntry
  global_errors : List ErrEntry
  input : List Data
  output : List Data
  store : ContainerStore
  module_pool : List (String × Module)
  recipe : Option Recipe
  events : List (String × Bool)
deriving DecidableEq, Repr

/-- Models `DFTimewolfState.__init__`: every attribute empty. -/
def initState : DFTimewolfState :=
  { errors := [], global_errors := [], input := [], output := [],
    store := ContainerStore.empty, module_pool := [], recipe := none, events := [] }

/-- Models `DFTimewolfState.add_error`: appends `(error, critical)` to the
phase-local `errors` list. -/
def add_error (s : DFTimewolfState) (error : String) (critical : Bool) : DFTimewolfState :=
  { s with errors := s.errors ++ [(error, critical)] }

/-- Models `DFTimewolfState.cleanup`: moves `errors` to the end of
`global_errors`, clears `errors`, then stages `input` from `output` and
clears `output`. -/
def cleanup (s : DFTimewolfState) : DFTimewolfState :=
  { s with
      global_errors := s.global_errors ++ s.errors,
      errors := [],
      input := s.output,
      output := [] }

/-- Models `DFTimewolfState.store_container` on the full state. -/
def DFTimewolfState.store_container (s : DFTimewolfState) (c : Container) : DFTimewolfState :=
  { s with store := s.store.store_container c }

/-- Models `DFTimewolfState.get_containers` on the full state: returns the
looked-up list object and the (unmodified) state. -/
def DFTimewolfState.get_containers (s : DFTimewolfState) (tag : String) :
    GetResult × DFTimewolfState :=
  ((s.store.get_containers tag).1, { s with store := (s.store.get_containers tag).2 })

/-- Models `DFTimewolfState.check_errors` on the full state: `is_global` selects
`global_errors` or `errors`; the state itself is not modified. -/
def check_errors_state (s : DFTimewolfState) (is_global : Bool) : List String × Option Int :=
  check_errors (if is_global then s.global_errors else s.errors)

/-- What `self.config.get_module(name)(self)` does for one name: the
external factory either resolves the name to an instantiated module or
raises (modelled by `Except.error` carrying the exception's message). -/
abbrev ModuleFactory := String → Except String Module

/-- The `for module_description in recipe['modules']:` loop of
`load_recipe`: each resolved module is bound in `_module_pool`
(dict assignment); an unresolved name makes the exception propagate,
leaving the state as mutated so far. -/
def loadLoop (factory : ModuleFactory) (s : DFTimewolfState) :
    List ModuleDescription → DFTimewolfState × Option String
  | [] => (s, none)
  | md :: rest =>
    match factory md.name with
    | Except.error e => (s, some e)
    | Except.ok m =>
        loadLoop factory { s with module_pool := assocSet md.name m s.module_pool } rest

/-- Models `DFTimewolfState.load_recipe`: records the recipe, then instantiates
every declared module into `_module_pool`.  The second component is the
propagated exception message when the factory fails, `none` on normal
return. -/
def load_recipe (factory : ModuleFactory) (s : DFTimewolfState) (recipe : Recipe) :
    DFTimewolfState × Option String :=
  loadLoop factory { s with recipe := some recipe } recipe.modules

/-- The behaviour of one `module.setup(**new_args)` call: either it
returns, or it raises some exception rendered as the message `msg`
(Python's `'{0!s}'.format(error)`). -/
inductive SetupOutcome where
  | ok
  | raises (msg : String)
deriving DecidableEq, Repr

/-- The generic wrapped message
`'An unknown error occurred: {0!s}'.format(error)`. -/
def unknownErrorMsg (msg : String) : String :=
  "An unknown error occurred: " ++ msg

/-- Models `_setup_module_thread` (inside `setup_modules`), for one module:
`try: module.setup(...) except Exception: add_error(generic, critical=True)`;
then `self.events[name] = threading.Event()` (a fresh, *cleared* event);
then `self.cleanup()`. -/
def setup_module_thread (s : DFTimewolfState) (name : String) (outcome : SetupOutcome) :
    DFTimewolfState :=
  let s1 :=
    match outcome with
    | SetupOutcome.ok => s
    | SetupOutcome.raises msg => add_error s (unknownErrorMsg msg) true
  let s2 := { s1 with events := assocSet name false s1.events }
  cleanup s2

/-- The behaviour of one `module.process()` call: it returns, raises the
distinguished `DFTimewolfError` (whose `.message` is carried), or raises
any other exception rendered as `msg`. -/
inductive ProcessOutcome where
  | ok
  | dftimewolfError (message : String)
  | otherException (msg : String)
deriving DecidableEq, Repr

/-- The fixed-format completion notice
`'Module {0:s} completed'.format(name)`. -/
def completionNotice (name : String) : String :=
  "Module " ++ name ++ " completed"

/-- Models `events[name].set()`: sets the existing event for `name` (dict lookup
followed by `set()`; the binding is left in place, its flag now true). -/
def setEvent (name : String) : List (String × Bool) → List (String × Bool)
  | [] => []
  | (k, v) :: rest => if k = name then (k, true) :: rest else (k, v) :: setEvent name rest

/-- Models `_run_module_thread` (inside `run_modules`), for one module, after
its blockers' events have been waited on:
`try: module.process() except DFTimewolfError as e: add_error(e.message, True)
except Exception as e: add_error(generic, True)`; then print the
completion notice; then `self.events[name].set()`; then `self.cleanup()`.
Returns the printed lines and the new state. -/
def run_module_thread (s : DFTimewolfState) (name : String) (outcome : ProcessOutcome) :
    List String × DFTimewolfState :=
  let s1 :=
    match outcome with
    | ProcessOutcome.ok => s
    | ProcessOutcome.dftimewolfError message => add_error s message true
    | ProcessOutcome.otherException msg => add_error s (unknownErrorMsg msg) true
  let s2 := { s1 with events := setEvent name s1.events }
  ([completionNotice name], cleanup s2)

/-- Well-formedness of the container store: every tag is bound to an
existing heap cell.  Holds for every store reachable from `empty`. -/
def ContainerStore.WF (s : ContainerStore) : Prop :=
  ∀ p ∈ s.index, p.2 < s.cells.length

/-! ### Helper lemmas -/

theorem checkLoop_no_crit (es : List ErrEntry) (h : es.any (fun e => e.2) = false) :
    checkLoop es = (es.map formatError, none) := by
  induction es with
  | nil => rfl
  | cons e rest ih =>
    simp only [List.any_cons, Bool.or_eq_false_iff] at h
    simp [checkLoop, h.1, ih h.2]

theorem checkLoop_crit (pre : List ErrEntry) (e : ErrEntry) (post : List ErrEntry)
    (hpre : pre.all (fun x => !x.2) = true) (he : e.2 = true) :
    checkLoop (pre ++ e :: post) =
      (pre.map formatError ++ [formatError e, abortNotice], some (-1)) := by
  induction pre with
  | nil => simp [checkLoop, he]
  | cons x xs ih =>
    simp only [List.all_cons, Bool.and_eq_true, Bool.not_eq_true'] at hpre
    simp [checkLoop, hpre.1, ih hpre.2]

theorem checkLoop_exit_iff (es : List ErrEntry) :
    (checkLoop es).2 ≠ none ↔ es.any (fun e => e.2) = true := by
  induction es with
  | nil => simp [checkLoop]
  | cons e rest ih =>
    cases h : e.2 with
    | true => simp [checkLoop, h]
    | false => simp [checkLoop, h, ih]

theorem checkLoop_exit_code (es : List ErrEntry) (c : Int) (h : (checkLoop es).2 = some c) :
    c = -1 := by
  induction es with
  | nil => simp [checkLoop] at h
  | cons e rest ih =>
    cases he : e.2 with
    | true => simp [checkLoop, he] at h; omega
    | false => simp [checkLoop, he] at h; exact ih h

theorem assocLookup_assocSet_self {β : Type} (k : String) (v : β) (l : List (String × β)) :
    assocLookup k (assocSet k v l) = some v := by
  induction l with
  | nil => simp [assocSet, assocLookup]
  | cons p rest ih =>
    obtain ⟨k2, v2⟩ := p
    by_cases h : k2 = k
    · simp [assocSet, assocLookup, h]
    · simp [assocSet, assocLookup, h, ih]

theorem assocLookup_append_of_none {β : Type} (k : String) (l1 l2 : List (String × β))
    (h : assocLookup k l1 = none) : assocLookup k (l1 ++ l2) = assocLookup k l2 := by
  induction l1 with
  | nil => rfl
  | cons p rest ih =>
    obtain ⟨k2, v⟩ := p
    by_cases hk : k2 = k
    · simp [assocLookup, hk] at h
    · simp only [List.cons_append, assocLookup, hk, if_false] at h ⊢
      exact ih h

theorem assocLookup_mem {β : Type} (k : String) (v : β) (l : List (String × β))
    (h : assocLookup k l = some v) : (k, v) ∈ l := by
  induction l with
  | nil => simp [assocLookup] at h
  | cons p rest ih =>
    obtain ⟨k2, v2⟩ := p
    by_cases hk : k2 = k
    · simp [assocLookup, hk] at h
      simp [hk, h]
    · simp only [assocLookup, hk, if_false] at h
      exact List.mem_cons_of_mem _ (ih h)

theorem getD_append_length {α : Type} (l : List α) (a d : α) :
    (l ++ [a]).getD l.length d = a := by
  induction l with
  | nil => rfl
  | cons x xs ih => simp

theorem set_append_length {α : Type} (l : List α) (a b : α) :
    (l ++ [a]).set l.length b = l ++ [b] := by
  induction l with
  | nil => rfl
  | cons x xs ih => simp [List.set, ih]

theorem getD_set_self {α : Type} (l : List α) (r : Nat) (x d : α) (h : r < l.length) :
    (l.set r x).getD r d = x := by
  induction l generalizing r with
  | nil => simp at h
  | cons y ys ih =>
    cases r with
    | zero => rfl
    | succ n => simpa [List.set] using ih n (by simpa using h)

theorem setEvent_lookup_self (name : String) (l : List (String × Bool))
    (h : assocLookup name l ≠ none) :
    assocLookup name (setEvent name l) = some true := by
  induction l with
  | nil => simp [assocLookup] at h
  | cons p rest ih =>
    obtain ⟨k, v⟩ := p
    by_cases hk : k = name
    · simp [setEvent, assocLookup, hk]
    · simp only [assocLookup, setEvent, hk, if_false] at h ⊢
      exact ih h

theorem get_containers_snd (s : ContainerStore) (tag : String) :
    (s.get_containers tag).2 = s := by
  unfold ContainerStore.get_containers
  cases assocLookup tag s.index <;> rfl

/-! ### Claim theorems -/

/-- C10: when the scanned error list is empty, `check_errors` emits no
output at all — not even the header line — and returns normally without
aborting. -/
theorem check_errors_empty_silent : check_errors [] = ([], none) := rfl

/-- C1: `check_errors` on the scanned list aborts (non-zero exit, namely
`-1`) iff the list holds a critical entry; when no entry is critical it
emits every entry (after the header, if non-empty) and returns normally;
when the list is `pre ++ e :: post` with `pre` all non-critical and `e`
critical, the output is the header, the entries of `pre` in insertion
order, `e` itself, and the abort notice — entries after `e` are never
emitted or considered. -/
theorem check_errors_spec (es : List ErrEntry) :
    ((check_errors es).2 ≠ none ↔ es.any (fun e => e.2) = true)
    ∧ (∀ c : Int, (check_errors es).2 = some c → c = -1)
    ∧ (es.any (fun e => e.2) = false →
        check_errors es =
          ((if es = [] then [] else errorsHeader :: es.map formatError), none))
    ∧ (∀ pre e post, es = pre ++ e :: post →
        pre.all (fun x => !x.2) = true → e.2 = true →
        check_errors es =
          (errorsHeader :: (pre.map formatError ++ [formatError e, abortNotice]),
            some (-1))) := by
  refine ⟨?_, ?_, ?_, ?_⟩
  · by_cases h : es = []
    · subst h; simp [check_errors]
    · simp only [check_errors, h, if_false]
      exact checkLoop_exit_iff es
  · intro c hc
    by_cases h : es = []
    · subst h; simp [check_errors] at hc
    · simp only [check_errors, h, if_false] at hc
      exact checkLoop_exit_code es c hc
  · intro h
    by_cases he : es = []
    · subst he; simp [check_errors]
    · simp [check_errors, he, checkLoop_no_crit es h]
  · intro pre e post hsplit hpre hcrit
    subst hsplit
    have hne : pre ++ e :: post ≠ [] := by simp
    simp [check_errors, hne, checkLoop_crit pre e post hpre hcrit]

theorem check_errors_spec_witness :
    check_errors [("a", false), ("b", true), ("c", false)] =
      (errorsHeader ::
        ([(("a" : String), false)].map formatError ++
          [formatError ("b", true), abortNotice]), some (-1)) :=
  (check_errors_spec [("a", false), ("b", true), ("c", false)]).2.2.2
    [("a", false)] ("b", true) [("c", false)] rfl (by decide) rfl

/-- C2: `cleanup` always empties the local error list, appends its prior
contents in order to the global list, stages `input` from the prior
`output` and clears `output`; among the state operations, `add_error`
only appends to the local list and `store_container`/`get_containers`
leave it untouched, so `cleanup` is the only operation that drains it,
and it moves (not copies) the entries. -/
theorem cleanup_spec (s : DFTimewolfState) :
    (cleanup s).errors = []
    ∧ (cleanup s).global_errors = s.global_errors ++ s.errors
    ∧ (cleanup s).input = s.output
    ∧ (cleanup s).output = []
    ∧ (∀ msg c, (add_error s msg c).errors = s.errors ++ [(msg, c)]
        ∧ (add_error s msg c).global_errors = s.global_errors)
    ∧ (∀ c, (s.store_container c).errors = s.errors)
    ∧ (∀ tag, ((s.get_containers tag).2).errors = s.errors) :=
  ⟨rfl, rfl, rfl, rfl, fun _ _ => ⟨rfl, rfl⟩, fun _ => rfl, fun _ => rfl⟩

/-- C3 counterexample: after the setup task runs for module `"A"` on the
initial state (setup succeeding), the module's event exists but its flag
is `false` — the signal is created *cleared*, not set, contradicting the
claim that it is in the set state when the setup task finishes. -/
theorem setup_event_not_set_cex :
    assocLookup "A" (setup_module_thread initState "A" SetupOutcome.ok).events = some false
    ∧ assocLookup "A" (setup_module_thread initState "A" SetupOutcome.ok).events
        ≠ some true := by
  decide

/-- C3 amended: in the setup phase, for every module and every outcome of
`module.setup` (success or raise), the module's completion event has been
created by the time the setup task finishes, but it is in the cleared
(not-set) state; it is only set later, by the run phase. -/
theorem setup_event_created_unset (s : DFTimewolfState) (name : String) (o : SetupOutcome) :
    assocLookup name (setup_module_thread s name o).events = some false := by
  cases o <;>
    simp [setup_module_thread, cleanup, add_error, assocLookup_assocSet_self]

/-- C6: every exception raised by `module.setup` is caught inside the
setup task and recorded as a critical ledger entry carrying the generic
wrapped message; the task then completes normally (the entry having been
moved to the global list by the task's final `cleanup`), so no failure
propagates out of the task. -/
theorem setup_failure_recorded (s : DFTimewolfState) (name : String) (msg : String) :
    (setup_module_thread s name (SetupOutcome.raises msg)).global_errors =
      s.global_errors ++ s.errors ++ [(unknownErrorMsg msg, true)]
    ∧ (setup_module_thread s name (SetupOutcome.raises msg)).errors = []
    ∧ (unknownErrorMsg msg, true)
        ∈ (setup_module_thread s name (SetupOutcome.raises msg)).global_errors := by
  refine ⟨?_, rfl, ?_⟩
  · simp [setup_module_thread, add_error, cleanup, List.append_assoc]
  · simp [setup_module_thread, add_error, cleanup]

/-- C5: in the run phase, whatever `module.process()` does — return, raise
the distinguished `DFTimewolfError`, or raise any other exception — the
task emits exactly the fixed-format completion notice, sets the module's
own (already created) event, and ends in a cleaned-up state whose global
list carries the prior entries followed by the critical entry recorded
for the failure: the error's own message for a `DFTimewolfError`, the
generic wrapped message for any other exception, nothing on success. -/
theorem run_module_thread_spec (s : DFTimewolfState) (name : String) (o : ProcessOutcome)
    (hpresent : assocLookup name s.events ≠ none) :
    (run_module_thread s name o).1 = [completionNotice name]
    ∧ assocLookup name ((run_module_thread s name o).2).events = some true
    ∧ ((run_module_thread s name o).2).errors = []
    ∧ ((run_module_thread s name o).2).input = s.output
    ∧ ((run_module_thread s name o).2).output = []
    ∧ ((run_module_thread s name o).2).global_errors =
        s.global_errors ++ s.errors ++
          (match o with
            | ProcessOutcome.ok => []
            | ProcessOutcome.dftimewolfError m => [(m, true)]
            | ProcessOutcome.otherException m => [(unknownErrorMsg m, true)]) := by
  cases o <;>
    exact ⟨rfl, setEvent_lookup_self name s.events hpresent, rfl, rfl, rfl,
      by simp [run_module_thread, add_error, cleanup, List.append_assoc]⟩

theorem run_module_thread_spec_witness :
    assocLookup "A"
        ((run_module_thread { initState with events := [("A", false)] } "A"
          (ProcessOutcome.dftimewolfError "disk full")).2).events = some true
    ∧ ((run_module_thread { initState with events := [("A", false)] } "A"
          (ProcessOutcome.dftimewolfError "disk full")).2).global_errors =
        [("disk full", true)] := by
  have h := run_module_thread_spec { initState with events := [("A", false)] } "A"
    (ProcessOutcome.dftimewolfError "disk full") (by decide)
  exact ⟨h.2.1, by simpa using h.2.2.2.2.2⟩

theorem loadLoop_frame (factory : ModuleFactory) (mods : List ModuleDescription) :
    ∀ s : DFTimewolfState,
      (loadLoop factory s mods).1.errors = s.errors
      ∧ (loadLoop factory s mods).1.global_errors = s.global_errors := by
  induction mods with
  | nil => intro s; exact ⟨rfl, rfl⟩
  | cons md rest ih =>
    intro s
    cases h : factory md.name with
    | error e => simp [loadLoop, h]
    | ok m => simpa [loadLoop, h] using ih { s with module_pool := assocSet md.name m s.module_pool }

theorem loadLoop_fails_iff (factory : ModuleFactory) (mods : List ModuleDescription) :
    ∀ s : DFTimewolfState,
      ((loadLoop factory s mods).2 ≠ none ↔
        ∃ md ∈ mods, ∃ e, factory md.name = Except.error e) := by
  induction mods with
  | nil => intro s; simp [loadLoop]
  | cons md rest ih =>
    intro s
    cases h : factory md.name with
    | error e =>
      simp only [loadLoop, h]
      constructor
      · intro _; exact ⟨md, List.mem_cons_self md rest, e, h⟩
      · intro _; simp
    | ok m =>
      simp only [loadLoop, h]
      rw [ih { s with module_pool := assocSet md.name m s.module_pool }]
      constructor
      · rintro ⟨md2, hmem, e2, he2⟩
        exact ⟨md2, List.mem_cons_of_mem _ hmem, e2, he2⟩
      · rintro ⟨md2, hmem, e2, he2⟩
        rcases List.mem_cons.mp hmem with heq | hmem2
        · subst heq; rw [h] at he2; cases he2
        · exact ⟨md2, hmem2, e2, he2⟩

theorem assocSet_keys_mem {β : Type} (k n : String) (v : β) (l : List (String × β)) :
    n ∈ (assocSet k v l).map Prod.fst ↔ (n = k ∨ n ∈ l.map Prod.fst) := by
  induction l with
  | nil => simp [assocSet]
  | cons p rest ih =>
    obtain ⟨k2, v2⟩ := p
    by_cases h : k2 = k
    · subst h
      simp [assocSet]
    · simp [assocSet, h, ih]
      tauto

theorem assocSet_keys_nodup {β : Type} (k : String) (v : β) (l : List (String × β))
    (h : (l.map Prod.fst).Nodup) : ((assocSet k v l).map Prod.fst).Nodup := by
  induction l with
  | nil => simp [assocSet]
  | cons p rest ih =>
    obtain ⟨k2, v2⟩ := p
    simp only [List.map_cons, List.nodup_cons] at h
    by_cases hk : k2 = k
    · subst hk
      simp only [assocSet, if_true, List.map_cons, List.nodup_cons]
      exact ⟨h.1, h.2⟩
    · simp only [assocSet, hk, if_false, List.map_cons, List.nodup_cons]
      refine ⟨?_, ih h.2⟩
      rw [assocSet_keys_mem]
      rintro (rfl | hmem)
      · exact hk rfl
      · exact h.1 hmem

theorem loadLoop_keys (factory : ModuleFactory) (mods : List ModuleDescription) :
    ∀ s : DFTimewolfState, (loadLoop factory s mods).2 = none →
      ∀ n, n ∈ ((loadLoop factory s mods).1.module_pool).map Prod.fst ↔
        (n ∈ s.module_pool.map Prod.fst ∨ n ∈ mods.map ModuleDescription.name) := by
  induction mods with
  | nil => intro s _ n; simp [loadLoop]
  | cons md rest ih =>
    intro s hok n
    cases h : factory md.name with
    | error e => simp [loadLoop, h] at hok
    | ok m =>
      simp only [loadLoop, h] at hok ⊢
      rw [ih { s with module_pool := assocSet md.name m s.module_pool } hok n]
      simp only [assocSet_keys_mem, List.map_cons, List.mem_cons]
      tauto

theorem loadLoop_keys_nodup (factory : ModuleFactory) (mods : List ModuleDescription) :
    ∀ s : DFTimewolfState, (s.module_pool.map Prod.fst).Nodup →
      (((loadLoop factory s mods).1.module_pool).map Prod.fst).Nodup := by
  induction mods with
  | nil => intro s h; exact h
  | cons md rest ih =>
    intro s h
    cases hf : factory md.name with
    | error e => simpa [loadLoop, hf] using h
    | ok m =>
      simp only [loadLoop, hf]
      exact ih { s with module_pool := assocSet md.name m s.module_pool }
        (assocSet_keys_nodup _ _ _ h)

/-- C7: `load_recipe` adds no ledger entry (local and global error lists
are untouched in every case); it propagates a failure to its caller
exactly when the factory cannot resolve some declared module name; and on
normal return from a fresh pool, the module pool's keys are exactly the
recipe's declared module names, each present exactly once (bound to the
instantiated module). -/
theorem load_recipe_spec (factory : ModuleFactory) (s : DFTimewolfState) (r : Recipe) :
    ((load_recipe factory s r).1.errors = s.errors
      ∧ (load_recipe factory s r).1.global_errors = s.global_errors)
    ∧ ((load_recipe factory s r).2 ≠ none ↔
        ∃ md ∈ r.modules, ∃ e, factory md.name = Except.error e)
    ∧ (s.module_pool = [] → (load_recipe factory s r).2 = none →
        (∀ n, n ∈ ((load_recipe factory s r).1.module_pool).map Prod.fst ↔
            n ∈ r.modules.map ModuleDescription.name)
        ∧ (((load_recipe factory s r).1.module_pool).map Prod.fst).Nodup) := by
  unfold load_recipe
  refine ⟨loadLoop_frame factory r.modules _, loadLoop_fails_iff factory r.modules _, ?_⟩
  intro hpool hok
  constructor
  · intro n
    have h := loadLoop_keys factory r.modules { s with recipe := some r } hok n
    simpa [hpool] using h
  · exact loadLoop_keys_nodup factory r.modules { s with recipe := some r } (by simp [hpool])

theorem load_recipe_spec_witness :
    "A" ∈ ((load_recipe
        (fun n => if n = "A" then Except.ok 1 else Except.error "unresolved module")
        initState ⟨[⟨"A", []⟩]⟩).1.module_pool).map Prod.fst := by
  have h := load_recipe_spec
    (fun n => if n = "A" then Except.ok 1 else Except.error "unresolved module")
    initState ⟨[⟨"A", []⟩]⟩
  exact ((h.2.2 rfl (by decide)).1 "A").mpr (by decide)

/-- C9: `get_containers` never mutates the container store: one call, or
any number of chained calls, returns the store unchanged (so no entry is
created for an absent tag, the key set is unchanged and every stored
sequence is unchanged); likewise on the full state. -/
theorem get_containers_pure (s : ContainerStore) (tag : String) (tags : List String)
    (ds : DFTimewolfState) :
    (s.get_containers tag).2 = s
    ∧ (tags.foldl (fun st t => (ContainerStore.get_containers st t).2) s) = s
    ∧ (DFTimewolfState.get_containers ds tag).2 = ds := by
  refine ⟨get_containers_snd s tag, ?_, ?_⟩
  · induction tags with
    | nil => rfl
    | cons t rest ih =>
      rw [List.foldl_cons, get_containers_snd]
      exact ih
  · simp [DFTimewolfState.get_containers, get_containers_snd]

/-- C4 counterexample: the claim quantifies over *every* container store
state, but on a store already holding a container `c0` under tag `"T"`,
storing `c1` then `c2` and fetching `"T"` yields `[c0, c1, c2]`, not
`[c1, c2]`. -/
theorem container_roundtrip_cex :
    ContainerStore.read
        ((((ContainerStore.empty.store_container ⟨"T", 0⟩).store_container
            ⟨"T", 1⟩).store_container ⟨"T", 2⟩).get_containers "T").2
        ((((ContainerStore.empty.store_container ⟨"T", 0⟩).store_container
            ⟨"T", 1⟩).store_container ⟨"T", 2⟩).get_containers "T").1
      = [⟨"T", 0⟩, ⟨"T", 1⟩, ⟨"T", 2⟩]
    ∧ ContainerStore.read
        ((((ContainerStore.empty.store_container ⟨"T", 0⟩).store_container
            ⟨"T", 1⟩).store_container ⟨"T", 2⟩).get_containers "T").2
        ((((ContainerStore.empty.store_container ⟨"T", 0⟩).store_container
            ⟨"T", 1⟩).store_container ⟨"T", 2⟩).get_containers "T").1
      ≠ [⟨"T", 1⟩, ⟨"T", 2⟩] := by
  decide

/-- C4 amended: for every container store state *in which nothing is
stored under tag `T`*, storing `c1` then `c2` (both of type `T`) and then
fetching `T` yields exactly `[c1, c2]` in insertion order; and for every
store, fetching a tag `U` under which nothing was stored yields an empty
sequence, never an error. -/
theorem container_roundtrip (s s2 : ContainerStore) (T U : String) (c1 c2 : Container)
    (hT : assocLookup T s.index = none)
    (h1 : c1.container_type = T) (h2 : c2.container_type = T)
    (hU : assocLookup U s2.index = none) :
    ContainerStore.read (((s.store_container c1).store_container c2).get_containers T).2
        (((s.store_container c1).store_container c2).get_containers T).1 = [c1, c2]
    ∧ ContainerStore.read (s2.get_containers U).2 (s2.get_containers U).1 = [] := by
  constructor
  · have e1 : s.store_container c1 =
        ⟨s.cells ++ [[c1]], s.index ++ [(T, s.cells.length)]⟩ := by
      simp only [ContainerStore.store_container, h1, hT]
    have hT2 : assocLookup T (s.index ++ [(T, s.cells.length)]) = some s.cells.length := by
      rw [assocLookup_append_of_none _ _ _ hT]
      simp [assocLookup]
    have e2 : (s.store_container c1).store_container c2 =
        ⟨s.cells ++ [[c1, c2]], s.index ++ [(T, s.cells.length)]⟩ := by
      rw [e1]
      simp only [ContainerStore.store_container, h2, hT2]
      rw [getD_append_length, set_append_length]
      simp
    rw [e2]
    simp only [ContainerStore.get_containers, hT2, ContainerStore.read]
    exact getD_append_length _ _ _
  · simp [ContainerStore.get_containers, hU, ContainerStore.read]

theorem container_roundtrip_witness :
    ContainerStore.read
        (((ContainerStore.empty.store_container ⟨"T", 1⟩).store_container
            ⟨"T", 2⟩).get_containers "T").2
        (((ContainerStore.empty.store_container ⟨"T", 1⟩).store_container
            ⟨"T", 2⟩).get_containers "T").1 = [⟨"T", 1⟩, ⟨"T", 2⟩]
    ∧ ContainerStore.read (ContainerStore.empty.get_containers "U").2
        (ContainerStore.empty.get_containers "U").1 = [] :=
  container_roundtrip ContainerStore.empty ContainerStore.empty "T" "U"
    ⟨"T", 1⟩ ⟨"T", 2⟩ rfl rfl rfl rfl

/-- C8 counterexample: the list object returned by `get` is the stored
list itself, not a snapshot: after storing `c1` under `"T"` the fetched
sequence reads `[c1]`, but after a later `store` of `c2` under the same
tag the *same previously returned* sequence reads `[c1, c2]` — a later
store operation altered it. -/
theorem get_containers_live_view_cex :
    ContainerStore.read (ContainerStore.empty.store_container ⟨"T", 1⟩)
        ((ContainerStore.empty.store_container ⟨"T", 1⟩).get_containers "T").1
      = [⟨"T", 1⟩]
    ∧ ContainerStore.read
        ((ContainerStore.empty.store_container ⟨"T", 1⟩).store_container ⟨"T", 2⟩)
        ((ContainerStore.empty.store_container ⟨"T", 1⟩).get_containers "T").1
      = [⟨"T", 1⟩, ⟨"T", 2⟩]
    ∧ ([⟨"T", 1⟩, ⟨"T", 2⟩] : List Container) ≠ [⟨"T", 1⟩] := by
  decide

/-- C8 amended: on a well-formed store, the sequence returned by `get`
for a present tag is a *live view* of the stored list: a later store
under the same tag appends to the very sequence previously returned; only
for an absent tag is the returned sequence a fresh empty list, which
always reads empty. -/
theorem get_containers_live_view (s : ContainerStore) (tag : String) (c : Container)
    (hwf : s.WF) (hc : c.container_type = tag) :
    (∀ r, (s.get_containers tag).1 = GetResult.ref r →
        ContainerStore.read (s.store_container c) (GetResult.ref r) =
          ContainerStore.read s (GetResult.ref r) ++ [c])
    ∧ ((s.get_containers tag).1 = GetResult.fresh →
        ∀ s3 : ContainerStore, ContainerStore.read s3 GetResult.fresh = []) := by
  constructor
  · intro r hr
    have hlook : assocLookup tag s.index = some r := by
      unfold ContainerStore.get_containers at hr
      cases h : assocLookup tag s.index with
      | none => rw [h] at hr; cases hr
      | some r2 => rw [h] at hr; cases hr; rfl
    have hrlt : r < s.cells.length := hwf (tag, r) (assocLookup_mem _ _ _ hlook)
    have hlc : assocLookup c.container_type s.index = some r := by rw [hc]; exact hlook
    simp only [ContainerStore.store_container, hlc, ContainerStore.read]
    exact getD_set_self _ _ _ _ hrlt
  · intro _ s3
    rfl

theorem get_containers_live_view_witness :
    ContainerStore.read
        ((ContainerStore.empty.store_container ⟨"T", 1⟩).store_container ⟨"T", 2⟩)
        (GetResult.ref 0) =
      ContainerStore.read (ContainerStore.empty.store_container ⟨"T", 1⟩)
        (GetResult.ref 0) ++ [⟨"T", 2⟩] :=
  (get_containers_live_view (ContainerStore.empty.store_container ⟨"T", 1⟩) "T"
    ⟨"T", 2⟩ (by unfold ContainerStore.WF; decide) rfl).1 0 rfl

end DFTW
